import Mathlib

/-!
Verification development for the Airbnb room-reviews scraper's
HTML-to-record extraction layer (`src/extractors/review_parser.py`,
`src/extractors/reviewer_parser.py`, `src/extractors/host_parser.py`).

The parsed-HTML document abstraction (BeautifulSoup) is embedded as a
tree of element/text nodes.  Element attributes are stored as an ordered
association list of string pairs.  All text processing is carried out on
`List Char`, mirroring Python's per-character string operations; strings
only occur as raw markup attribute values and raw text-node payloads.

The two external capabilities of spec §6 — the language detector and the
date parser — are passed to the embedded functions as parameters
(`ld : List Char → Option String`, `dp : List Char → Option PyDateTime`),
so every theorem below holds for every implementation of those
capabilities.  Timestamps are modelled at seconds precision together
with an optional timezone offset, following the spec's description of
the date-parsing capability and of the ISO-8601 output format.
-/

/-- Python's six ASCII whitespace characters (the set matched by `\s`
and stripped by `str.strip` on ASCII input). -/
def pyWS (c : Char) : Bool :=
  c = ' ' || c = '\t' || c = '\n' || c = '\r' || c = '\x0b' || c = '\x0c'

/-- Python `str.strip()` on a character list. -/
def pyStrip (l : List Char) : List Char :=
  ((l.dropWhile pyWS).reverse.dropWhile pyWS).reverse

/-- Python `str.lower()` (ASCII case folding suffices for the markup
keywords searched by the scraper). -/
def toLowerL (l : List Char) : List Char := l.map Char.toLower

/-- Does `pat` occur (contiguously) in `hay`?  Python's `pat in hay`. -/
def hasSubstr (hay pat : List Char) : Bool :=
  match hay with
  | [] => pat.isEmpty
  | _ :: t => pat.isPrefixOf hay || hasSubstr t pat

/-- A DOM node of the parsed-document abstraction: an element with a
tag, an attribute list and children, or a text node. -/
inductive Node where
  | text (s : String)
  | elem (tag : String) (attrs : List (String × String)) (children : List Node)

/-- First value bound to attribute `a`, if any (text nodes have none). -/
def getAttr (n : Node) (a : String) : Option String :=
  match n with
  | .text _ => none
  | .elem _ as_ _ => (as_.find? (fun p => p.1 == a)).map Prod.snd

/-- Is `n` an element with tag `t`? -/
def isTag (t : String) (n : Node) : Bool :=
  match n with
  | .text _ => false
  | .elem tg _ _ => tg == t

/-- The attribute list of an element (empty for text nodes). -/
def attrsOf (n : Node) : List (String × String) :=
  match n with
  | .text _ => []
  | .elem _ as_ _ => as_

mutual
/-- All proper descendants of a node, in document (pre-)order.  This is
the search space of BeautifulSoup's `find`/`find_all`/`select`, which
never match the node they are called on. -/
def subnodes : Node → List Node
  | .text _ => []
  | .elem _ _ cs => subnodesL cs
def subnodesL : List Node → List Node
  | [] => []
  | n :: ns => n :: subnodes n ++ subnodesL ns
end

mutual
/-- The raw text-node payloads below a node, in document order. -/
def textFragments : Node → List String
  | .text s => [s]
  | .elem _ _ cs => textFragmentsL cs
def textFragmentsL : List Node → List String
  | [] => []
  | n :: ns => textFragments n ++ textFragmentsL ns
end

/-- `List.intercalate` on character lists. -/
def intercalateL (sep : List Char) : List (List Char) → List Char
  | [] => []
  | [x] => x
  | x :: y :: rest => x ++ sep ++ intercalateL sep (y :: rest)

/-- BeautifulSoup `get_text(sep, strip=True)`: each descendant string is
stripped, empty strings are skipped, and the rest are joined by `sep`. -/
def getText (sep : List Char) (n : Node) : List Char :=
  intercalateL sep
    (((textFragments n).map (fun s => pyStrip s.data)).filter (fun l => !l.isEmpty))

/-- Attribute keys that BeautifulSoup's HTML tree builder stores as
lists rather than strings (the `'*'` multi-valued set); the scraper's
`isinstance(value, str)` filters drop these values. -/
def multiValuedAttrKeys : List String := ["class", "accesskey", "dropzone"]

/-- Whitespace-separated tokens of a character list (CSS class-token
splitting). -/
def splitWSGo : List Char → List Char → List (List Char)
  | [], cur => if cur.isEmpty then [] else [cur.reverse]
  | c :: t, cur =>
    if pyWS c then
      if cur.isEmpty then splitWSGo t [] else cur.reverse :: splitWSGo t []
    else splitWSGo t (c :: cur)

def splitWS (l : List Char) : List (List Char) := splitWSGo l []

/-- The CSS selector shapes used by the scraper. -/
inductive Selector where
  | attrPresent (a : String)
  | tag (t : String)
  | tagAttrEq (t a v : String)
  | tagAttrPresent (t a : String)
  | tagClass (t cl : String)

/-- Does a node match a selector? -/
def matchesSelector (s : Selector) (n : Node) : Bool :=
  match s with
  | .attrPresent a => (getAttr n a).isSome
  | .tag t => isTag t n
  | .tagAttrEq t a v => isTag t n && (getAttr n a == some v)
  | .tagAttrPresent t a => isTag t n && (getAttr n a).isSome
  | .tagClass t cl =>
      isTag t n && (splitWS ((getAttr n "class").getD "").data).contains cl.data

/-- `node.select(sel)`: all matching descendants in document order. -/
def selectAll (s : Selector) (c : Node) : List Node :=
  (subnodes c).filter (matchesSelector s)

/-- `node.select_one(sel)`: the first matching descendant. -/
def selectOne (s : Selector) (c : Node) : Option Node :=
  (selectAll s c).head?

/-- Decimal digits to a natural number. -/
def digitsToNat (l : List Char) : Nat :=
  l.foldl (fun a c => 10 * a + (c.toNat - '0'.toNat)) 0

/-- Value of an integer part `ds` and a fractional part `fs` of decimal
digits, as produced by Python `float` on a `\d+(\.\d+)?` match. -/
def numVal (ds fs : List Char) : ℚ :=
  (digitsToNat ds : ℚ) + (digitsToNat fs : ℚ) / (10 : ℚ) ^ fs.length

/-- Python `float()` on decimal notation: optional surrounding
whitespace, optional sign, then `\d+`, `\d+.\d*`, or `.\d+`. -/
def pyFloat (l : List Char) : Option ℚ :=
  let t := pyStrip l
  let sgnd : ℚ × List Char :=
    match t with
    | '-' :: r => (-1, r)
    | '+' :: r => (1, r)
    | _ => (1, t)
  let sgn := sgnd.1
  let t1 := sgnd.2
  let p := t1.span Char.isDigit
  match p.2 with
  | [] => if p.1.isEmpty then none else some (sgn * numVal p.1 [])
  | '.' :: r2 =>
    let q := r2.span Char.isDigit
    if q.2.isEmpty then
      if p.1.isEmpty && q.1.isEmpty then none
      else some (sgn * numVal p.1 q.1)
    else none
  | _ => none

/-- Python `int()` on decimal notation. -/
def pyInt (s : String) : Option Int :=
  let t := pyStrip s.data
  let sgnd : Int × List Char :=
    match t with
    | '-' :: r => (-1, r)
    | '+' :: r => (1, r)
    | _ => (1, t)
  if sgnd.2 ≠ [] ∧ sgnd.2.all Char.isDigit then
    some (sgnd.1 * (digitsToNat sgnd.2 : Int))
  else none

/-- Consume the literal `pat` if it is a prefix; return the rest. -/
def expectLit (pat l : List Char) : Option (List Char) :=
  if pat.isPrefixOf l then some (l.drop pat.length) else none

/-- Consume `\s+` (at least one whitespace character, greedily). -/
def expectWS1 (l : List Char) : Option (List Char) :=
  match l with
  | c :: _ => if pyWS c then some (l.dropWhile pyWS) else none
  | [] => none

/-- Parse `\d+(\.\d+)?` at the head of `l`, returning the numeric value
of the match and the rest.  (For these patterns greedy matching without
backtracking agrees with Python `re` semantics: a shortened digit run
always leaves a digit in a position that requires a non-digit.) -/
def parseNumberAt (l : List Char) : Option (ℚ × List Char) :=
  let p := l.span Char.isDigit
  if p.1.isEmpty then none
  else
    match p.2 with
    | '.' :: r2 =>
      let q := r2.span Char.isDigit
      if q.1.isEmpty then some (numVal p.1 [], p.2)
      else some (numVal p.1 q.1, q.2)
    | _ => some (numVal p.1 [], p.2)

/-- Match `(\d+(?:\.\d+)?)\s+out\s+of\s+5` anchored at the head. -/
def matchOutOf5At (l : List Char) : Option ℚ := do
  let (v, r1) ← parseNumberAt l
  let r2 ← expectWS1 r1
  let r3 ← expectLit ['o', 'u', 't'] r2
  let r4 ← expectWS1 r3
  let r5 ← expectLit ['o', 'f'] r4
  let r6 ← expectWS1 r5
  let _ ← expectLit ['5'] r6
  pure v

/-- `re.search` of `(\d+(?:\.\d+)?)\s+out\s+of\s+5`: value of the
leftmost match. -/
def scanOutOf5 : List Char → Option ℚ
  | [] => none
  | l@(_ :: t) =>
    match matchOutOf5At l with
    | some v => some v
    | none => scanOutOf5 t

/-- Match `(\d+(?:\.\d+)?)\s*/\s*5` anchored at the head. -/
def matchSlash5At (l : List Char) : Option ℚ := do
  let (v, r1) ← parseNumberAt l
  let r2 ← expectLit ['/'] (r1.dropWhile pyWS)
  let _ ← expectLit ['5'] (r2.dropWhile pyWS)
  pure v

/-- `re.search` of `(\d+(?:\.\d+)?)\s*/\s*5`: value of the leftmost
match. -/
def scanSlash5 : List Char → Option ℚ
  | [] => none
  | l@(_ :: t) =>
    match matchSlash5At l with
    | some v => some v
    | none => scanSlash5 t

/-- `re.search(r"review[-_]?(\d+)", value)`: the captured digit run of
the leftmost match. -/
def scanReviewId : List Char → Option (List Char)
  | [] => none
  | l@(_ :: t) =>
    match expectLit ['r', 'e', 'v', 'i', 'e', 'w'] l with
    | some r =>
      let cap : Option (List Char) :=
        match r with
        | c2 :: rr =>
          if c2 = '-' || c2 = '_' then
            let p := rr.span Char.isDigit
            if p.1.isEmpty then none else some p.1
          else
            let p := r.span Char.isDigit
            if p.1.isEmpty then none else some p.1
        | [] => none
      match cap with
      | some ds => some ds
      | none => scanReviewId t
    | none => scanReviewId t

/-- `re.search(r"/users/show/(\d+)", href)`: the captured digit run of
the leftmost match. -/
def scanUserId : List Char → Option (List Char)
  | [] => none
  | l@(_ :: t) =>
    match expectLit "/users/show/".data l with
    | some r =>
      let p := r.span Char.isDigit
      if p.1.isEmpty then scanUserId t else some p.1
    | none => scanUserId t

/-- Is `pat` (given in lowercase) a case-insensitive prefix of `l`? -/
def ciStartsWith (pat l : List Char) : Bool :=
  pat.isPrefixOf (toLowerL (l.take pat.length))

/-- Suffix of `l` starting right after the leftmost case-insensitive
occurrence of `"response from"`. -/
def scanResponseFrom : List Char → Option (List Char)
  | [] => none
  | l@(_ :: t) =>
    if ciStartsWith "response from".data l then some (l.drop 13)
    else scanResponseFrom t

/-- Everything after the first `':'` in `l` that has at least one
character after it.  With `re.DOTALL`, the lazy `.*?:` of
`Response from.*?:\s*(.+)` stops at exactly this colon, and
`group(1).strip()` equals the strip of this suffix. -/
def afterColon : List Char → Option (List Char)
  | [] => none
  | c :: rest =>
    if c = ':' ∧ rest ≠ [] then some rest else afterColon rest

/-- Python `text[:2000].rsplit(" ", 1)[0]`: drop the last space and
everything after it; keep everything when there is no space. -/
def dropLastWord (t : List Char) : List Char :=
  match (t.reverse).dropWhile (fun c => c ≠ ' ') with
  | [] => t
  | _ :: restRev => restRev.reverse

/-- Timestamp model of the external date-parsing capability (§6):
calendar fields at seconds precision plus an optional timezone offset. -/
structure PyDateTime where
  year : Nat
  month : Nat
  day : Nat
  hour : Nat
  minute : Nat
  second : Nat
  tzMinutes : Option Int := none

/-- Decimal digits of `n`, left-padded with `'0'` to width `w`
(`isoformat`'s fixed-width fields). -/
def padNum (w n : Nat) : List Char :=
  let d := Nat.toDigits 10 n
  List.replicate (w - d.length) '0' ++ d

/-- `dt.replace(tzinfo=None).isoformat() + "Z"`: the timezone offset is
never printed, and the result ends in a literal `'Z'`. -/
def isoZ (dt : PyDateTime) : List Char :=
  padNum 4 dt.year ++ '-' :: padNum 2 dt.month ++ '-' :: padNum 2 dt.day ++
    'T' :: padNum 2 dt.hour ++ ':' :: padNum 2 dt.minute ++
    ':' :: padNum 2 dt.second ++ ['Z']

/-- English month names printed by `strftime("%B")` (months are 1–12 on
any datetime the parse capability can produce). -/
def monthName : Nat → List Char
  | 1 => "January".data
  | 2 => "February".data
  | 3 => "March".data
  | 4 => "April".data
  | 5 => "May".data
  | 6 => "June".data
  | 7 => "July".data
  | 8 => "August".data
  | 9 => "September".data
  | 10 => "October".data
  | 11 => "November".data
  | 12 => "December".data
  | _ => []

/-- `dt.strftime("%B %Y")`: coarse "Month Year" display string. -/
def monthYear (dt : PyDateTime) : List Char :=
  monthName dt.month ++ ' ' :: Nat.toDigits 10 dt.year

/-- Reviewer sub-record built by `ReviewerParser.parse_reviewer`. -/
structure ReviewerRec where
  id : Option (List Char)
  firstName : Option (List Char)
  profilePath : Option String
  pictureUrl : Option String
  isSuperhost : Bool
  location : Option (List Char)

/-- Host sub-record built by `HostParser.parse_host` (no location). -/
structure HostRec where
  id : Option (List Char)
  firstName : Option (List Char)
  profilePath : Option String
  pictureUrl : Option String
  isSuperhost : Bool

/-- One normalized review record (§3 of the spec). -/
structure Review where
  roomUrl : String
  reviewId : Option (List Char)
  rating : Option ℚ
  comment : Option (List Char)
  language : Option String
  createdAt : Option (List Char)
  localizedDate : Option (List Char)
  reviewer : ReviewerRec
  host : HostRec
  response : Option (List Char)
  reviewPhotos : List String

namespace ReviewerParser

/-- `_find_profile_link`: first `<a href>` descendant whose href
contains `"/users/show/"`. -/
def find_profile_link (c : Node) : Option Node :=
  (subnodes c).find? (fun n =>
    isTag "a" n && (getAttr n "href").isSome &&
      hasSubstr ((getAttr n "href").getD "").data "/users/show/".data)

/-- `_find_profile_picture`: an image whose `alt` mentions
"profile"/"avatar", else the first small (≤ 80 px) image with a src. -/
def find_profile_picture (c : Node) : Option String :=
  let imgs := (subnodes c).filter (isTag "img")
  let byAlt := imgs.findSome? (fun i =>
    let alt := toLowerL ((getAttr i "alt").getD "").data
    if hasSubstr alt "profile".data || hasSubstr alt "avatar".data then
      match getAttr i "src" with
      | some s => if s ≠ "" then some s else none
      | none => none
    else none)
  match byAlt with
  | some s => some s
  | none =>
    imgs.findSome? (fun i =>
      match getAttr i "width", getAttr i "height" with
      | some w, some h =>
        if w ≠ "" ∧ h ≠ "" then
          match pyInt w, pyInt h with
          | some wi, some hi =>
            if max wi hi ≤ 80 then
              match getAttr i "src" with
              | some s => if s ≠ "" then some s else none
              | none => none
            else none
          | _, _ => none
        else none
      | _, _ => none)

/-- Earliest shortest candidate: `sorted(cands, key=len)[0]` of a stable
sort. -/
def minLenFirst (x : List Char) : List (List Char) → List Char
  | [] => x
  | y :: ys => if y.length < x.length then minLenFirst y ys else minLenFirst x ys

/-- Loop body of `_find_reviewer_location`. -/
def location_loop : List Node → List (List Char) → Option (List Char)
  | [], cands =>
    match cands with
    | [] => none
    | x :: xs => some (minLenFirst x xs)
  | e :: rest, cands =>
    let t := getText [' '] e
    if t = [] then location_loop rest cands
    else
      let lw := toLowerL t
      if hasSubstr lw "years on airbnb".data || hasSubstr lw "year on airbnb".data then
        some t
      else if hasSubstr lw "from ".data && t.length < 80 then
        location_loop rest (cands ++ [t])
      else location_loop rest cands

/-- `_find_reviewer_location`: a tenure phrase short-circuits, else the
shortest sub-80-character text containing `"from "`. -/
def find_reviewer_location (c : Node) : Option (List Char) :=
  location_loop ((subnodes c).filter (fun n => isTag "span" n || isTag "div" n)) []

/-- `ReviewerParser._detect_superhost_flag`: case-insensitive substring
search for "superhost" over the container's full visible text. -/
def detect_superhost_flag (c : Node) : Bool :=
  hasSubstr (toLowerL (getText [' '] c)) "superhost".data

/-- `ReviewerParser.parse_reviewer`. -/
def parse_reviewer (c : Node) : ReviewerRec :=
  let base : ReviewerRec :=
    { id := none, firstName := none, profilePath := none, pictureUrl := none
      isSuperhost := false, location := none }
  let r1 :=
    match find_profile_link c with
    | some link =>
      let href := (getAttr link "href").getD ""
      let t := getText [] link
      { base with
          profilePath := some href
          id := scanUserId href.data
          firstName := if t ≠ [] then some t else none }
    | none => base
  let r2 :=
    match find_profile_picture c with
    | some s => { r1 with pictureUrl := some s }
    | none => r1
  let r3 :=
    match find_reviewer_location c with
    | some loc => { r2 with location := some loc }
    | none => r2
  { r3 with isSuperhost := detect_superhost_flag c }

end ReviewerParser

namespace HostParser

/-- The two host-response region lookups, in source order. -/
def host_sections (c : Node) : List (Option Node) :=
  [ (subnodes c).find? (fun n =>
      isTag "section" n && (getAttr n "data-testid" == some "host-response")),
    (subnodes c).find? (fun n =>
      isTag "div" n && (getAttr n "data-testid" == some "review-detail-host-response")) ]

/-- `_find_host_link`: a `/users/show/` link inside a host-response
region, else any such link in the container provided a "response from"
phrase occurs in the container's text. -/
def find_host_link (c : Node) : Option Node :=
  let inSection := (host_sections c).findSome? (fun os =>
    os.bind (fun sec =>
      (subnodes sec).find? (fun n =>
        isTag "a" n && (getAttr n "href").isSome &&
          hasSubstr ((getAttr n "href").getD "").data "/users/show/".data)))
  match inSection with
  | some l => some l
  | none =>
    if hasSubstr (toLowerL (getText [' '] c)) "response from".data then
      (subnodes c).find? (fun n =>
        isTag "a" n && (getAttr n "href").isSome &&
          hasSubstr ((getAttr n "href").getD "").data "/users/show/".data)
    else none

/-- `re.sub(r"^Response from\s+", "", text, flags=re.IGNORECASE)`. -/
def stripResponseFrom (t : List Char) : List Char :=
  if ciStartsWith "response from".data t then
    match expectWS1 (t.drop 13) with
    | some r => r
    | none => t
  else t

/-- `_find_host_picture`: first image with a src inside a host-response
region. -/
def find_host_picture (c : Node) : Option String :=
  (host_sections c).findSome? (fun os =>
    os.bind (fun sec =>
      ((subnodes sec).filter (isTag "img")).findSome? (fun i =>
        match getAttr i "src" with
        | some s => if s ≠ "" then some s else none
        | none => none)))

/-- `HostParser._detect_superhost_flag`: case-insensitive substring
search for "superhost" over the container's full visible text. -/
def detect_superhost_flag (c : Node) : Bool :=
  hasSubstr (toLowerL (getText [' '] c)) "superhost".data

/-- `HostParser.parse_host`. -/
def parse_host (c : Node) : HostRec :=
  let base : HostRec :=
    { id := none, firstName := none, profilePath := none, pictureUrl := none
      isSuperhost := false }
  let r1 :=
    match find_host_link c with
    | some link =>
      let href := (getAttr link "href").getD ""
      let t := getText [] link
      { base with
          profilePath := some href
          id := scanUserId href.data
          firstName := if t ≠ [] then some (stripResponseFrom t) else none }
    | none => base
  let r2 :=
    match find_host_picture c with
    | some s => { r1 with pictureUrl := some s }
    | none => r1
  { r2 with isSuperhost := detect_superhost_flag c }

end HostParser

namespace ReviewParser

/-- The container-selection strategies of `_find_review_containers`, in
priority order: explicit review-id attribute, test-id, microdata, class
`review`, generic `article` tag. -/
def review_selectors : List Selector :=
  [ .attrPresent "data-review-id",
    .tagAttrEq "div" "data-testid" "review",
    .tagAttrEq "div" "itemprop" "review",
    .tagClass "div" "review",
    .tag "article" ]

/-- The selection loop: first selector with at least one match wins. -/
def first_nonempty_select (doc : Node) : List Selector → List Node
  | [] => []
  | s :: rest =>
    let es := selectAll s doc
    if es.isEmpty then first_nonempty_select doc rest else es

/-- `ReviewParser._find_review_containers`. -/
def find_review_containers (doc : Node) : List Node :=
  first_nonempty_select doc review_selectors

/-- `_extract_review_id_from_attributes`: scan the container's
string-valued attributes for a `review[-_]?(\d+)` pattern. -/
def extract_review_id_from_attributes (c : Node) : Option (List Char) :=
  ((attrsOf c).filter (fun p => !multiValuedAttrKeys.contains p.1)).findSome?
    (fun p => scanReviewId p.2.data)

/-- The review-id cascade of `_parse_single_review` (lines 84–88):
`container.get("data-review-id") or container.get("id") or
self._extract_review_id_from_attributes(container)` with Python
truthiness (empty strings fall through). -/
def extract_review_id (c : Node) : Option (List Char) :=
  match getAttr c "data-review-id" with
  | some v =>
    if v ≠ "" then some v.data
    else
      match getAttr c "id" with
      | some w => if w ≠ "" then some w.data else extract_review_id_from_attributes c
      | none => extract_review_id_from_attributes c
  | none =>
    match getAttr c "id" with
    | some w => if w ≠ "" then some w.data else extract_review_id_from_attributes c
    | none => extract_review_id_from_attributes c

/-- Comment-content selectors tried by `_extract_comment`, in order. -/
def comment_selectors : List Selector :=
  [ .tagAttrEq "div" "data-testid" "review-comments",
    .tag "q", .tag "blockquote", .tag "p" ]

/-- `_extract_comment`: first selector whose first match has nonempty
text, else the longest `<span>` text. -/
def extract_comment (c : Node) : Option (List Char) :=
  let structured := comment_selectors.findSome? (fun s =>
    match selectOne s c with
    | some e =>
      let t := getText [] e
      if t ≠ [] then some t else none
    | none => none)
  match structured with
  | some t => some t
  | none =>
    let longest := ((subnodes c).filter (isTag "span")).foldl
      (fun best sp =>
        let t := getText [] sp
        if t.length > best.length then t else best) []
    if longest = [] then none else some longest

/-- Rating heuristic 1 (lines 157–163): the first element with
`itemprop="ratingValue"`, its `content` attribute parsed as a float;
a missing element, a falsy `content` or an unparsable value all fall
through. -/
def ratingFromItemprop (c : Node) : Option ℚ :=
  match (subnodes c).find? (fun n => getAttr n "itemprop" == some "ratingValue") with
  | some e =>
    match getAttr e "content" with
    | some v => if v ≠ "" then pyFloat v.data else none
    | none => none
  | none => none

/-- Rating heuristic 2 (lines 165–173): first element with an
`aria-label` whose label matches `(\d+(?:\.\d+)?)\s+out\s+of\s+5`. -/
def ratingFromAriaLabel (c : Node) : Option ℚ :=
  ((subnodes c).filter (fun n => (getAttr n "aria-label").isSome)).findSome?
    (fun e => scanOutOf5 ((getAttr e "aria-label").getD "").data)

/-- Rating heuristic 3 (lines 175–182): free-text scan of the
container's visible text for `(\d+(?:\.\d+)?)\s*/\s*5`. -/
def ratingFromText (c : Node) : Option ℚ :=
  scanSlash5 (getText [' '] c)

/-- `ReviewParser._extract_rating`: the three heuristics in order. -/
def extract_rating (c : Node) : Option ℚ :=
  match ratingFromItemprop c with
  | some v => some v
  | none =>
    match ratingFromAriaLabel c with
    | some v => some v
    | none => ratingFromText c

/-- Does a span's attribute text mention "date"?  The joined values are
the string-valued attributes only (`isinstance(v, str)`). -/
def spanMentionsDate (sp : Node) : Bool :=
  hasSubstr
    (toLowerL (String.intercalate " "
      (((attrsOf sp).filter (fun p => !multiValuedAttrKeys.contains p.1)).map
        Prod.snd)).data)
    "date".data

/-- The date text captured by `_extract_dates` (lines 190–205): a
`<time>` element's `datetime` attribute or visible text, else the text
of the first `<span>` whose attributes mention "date"; `[]` when
nothing (truthy) is found. -/
def date_text (c : Node) : List Char :=
  let t1 : List Char :=
    match (subnodes c).find? (isTag "time") with
    | some te =>
      match getAttr te "datetime" with
      | some d => if d ≠ "" then d.data else getText [] te
      | none => getText [] te
    | none => []
  if t1 ≠ [] then t1
  else
    match ((subnodes c).filter (isTag "span")).find? spanMentionsDate with
    | some sp => getText [] sp
    | none => []

/-- `ReviewParser._extract_dates`, parameterized by the external date
parser `dp`: `(createdAt, localizedDate)`. -/
def extract_dates (dp : List Char → Option PyDateTime) (c : Node) :
    Option (List Char) × Option (List Char) :=
  let t := date_text c
  if t = [] then (none, none)
  else
    match dp t with
    | none => (none, some t)
    | some dt => (some (isoZ dt), some (monthYear dt))

/-- Host-response region selectors tried by `_extract_host_response`. -/
def host_response_selectors : List Selector :=
  [ .tagAttrEq "div" "data-testid" "review-detail-host-response",
    .tagAttrEq "section" "data-testid" "host-response" ]

/-- Truncation applied to an over-long captured response (lines
238–240): `text[:2000].rsplit(" ", 1)[0] + "…"` when longer than 2000
characters. -/
def truncResponse (body : List Char) : List Char :=
  if body.length > 2000 then dropLastWord (body.take 2000) ++ ['…']
  else body

/-- `ReviewParser._extract_host_response`: an explicit host-response
region's text, else the `Response from.*?:\s*(.+)` capture (IGNORECASE,
DOTALL) of the newline-joined container text, stripped and truncated. -/
def extract_host_response (c : Node) : Option (List Char) :=
  let structured := host_response_selectors.findSome? (fun s =>
    match selectOne s c with
    | some e =>
      let t := getText [' '] e
      if t ≠ [] then some t else none
    | none => none)
  match structured with
  | some t => some t
  | none =>
    match scanResponseFrom (getText ['\n'] c) with
    | some suf =>
      match afterColon suf with
      | some rest => some (truncResponse (pyStrip rest))
      | none => none
    | none => none

/-- Photo selectors of `_extract_review_photos`, in order. -/
def photo_selectors : List Selector :=
  [ .tagAttrEq "img" "data-testid" "review-photo",
    .tagAttrPresent "img" "data-original-uri" ]

/-- The URL contributed by one matched image: `data-original-uri or
src`, skipped when falsy. -/
def photoUrlOf (i : Node) : Option String :=
  let u : String :=
    match getAttr i "data-original-uri" with
    | some v => if v ≠ "" then v else (getAttr i "src").getD ""
    | none => (getAttr i "src").getD ""
  if u ≠ "" then some u else none

/-- Candidate URLs of the selector phase, in visit order (duplicates
included). -/
def photoPhase1 (c : Node) : List String :=
  photo_selectors.flatMap (fun s => (selectAll s c).filterMap photoUrlOf)

/-- Candidate URLs of the fallback phase: images below any `<div>`
whose class tokens mention "photo" or "image". -/
def photoPhase2 (c : Node) : List String :=
  (((subnodes c).filter (isTag "div")).filter (fun d =>
    let cls := toLowerL (intercalateL [' ']
      (splitWS ((getAttr d "class").getD "").data))
    hasSubstr cls "photo".data || hasSubstr cls "image".data)).flatMap
    (fun d =>
      ((subnodes d).filter (isTag "img")).filterMap (fun i =>
        match getAttr i "src" with
        | some s => if s ≠ "" then some s else none
        | none => none))

/-- The full candidate-URL stream: the fallback phase is consulted only
when the selector phase contributed nothing. -/
def photoCandidates (c : Node) : List String :=
  if photoPhase1 c ≠ [] then photoPhase1 c else photoPhase2 c

/-- `url not in photos`-guarded append. -/
def pushUnique (acc : List String) (u : String) : List String :=
  if u ∈ acc then acc else acc ++ [u]

/-- `ReviewParser._extract_review_photos`. -/
def extract_review_photos (c : Node) : List String :=
  let photos := (photoPhase1 c).foldl pushUnique []
  if photos = [] then (photoPhase2 c).foldl pushUnique [] else photos

/-- `ReviewParser._parse_single_review`, parameterized by the external
date parser `dp` and language detector `ld`. -/
def parse_single_review (dp : List Char → Option PyDateTime)
    (ld : List Char → Option String) (room_url : String) (c : Node) : Review :=
  let comment := extract_comment c
  let dates := extract_dates dp c
  { roomUrl := room_url
    reviewId := extract_review_id c
    rating := extract_rating c
    comment := comment
    language :=
      match comment with
      | some t => if t ≠ [] then ld t else none
      | none => none
    createdAt := dates.1
    localizedDate := dates.2
    reviewer := ReviewerParser.parse_reviewer c
    host := HostParser.parse_host c
    response := extract_host_response c
    reviewPhotos := extract_review_photos c }

/-- `max_items is not None and len(reviews) >= max_items`. -/
def maxReached : Option Nat → Nat → Bool
  | none, _ => false
  | some m, k => m ≤ k

/-- The per-container loop of `parse_reviews` (lines 38–51), over an
abstract per-container assembly step `f` that may fail (the `try`/
`except` boundary): a failing container is skipped, a successful one is
appended, and the loop stops once the maximum count is reached. -/
def parse_loop (f : Node → Except String Review) (max_items : Option Nat) :
    List Node → List Review → List Review
  | [], reviews => reviews
  | c :: cs, reviews =>
    if maxReached max_items reviews.length then reviews
    else
      match f c with
      | .error _ => parse_loop f max_items cs reviews
      | .ok r => parse_loop f max_items cs (reviews ++ [r])

/-- `ReviewParser.parse_reviews`: locate containers, then assemble one
record per container.  (The embedded `parse_single_review` is total, so
it is injected with `Except.ok`; `parse_loop` keeps the source's
per-container error boundary in full generality.) -/
def parse_reviews (dp : List Char → Option PyDateTime)
    (ld : List Char → Option String) (doc : Node) (room_url : String)
    (max_items : Option Nat) : List Review :=
  parse_loop (fun c => Except.ok (parse_single_review dp ld room_url c))
    max_items (find_review_containers doc) []

end ReviewParser

/-- De-duplication keeping the first occurrence of each element, in
insertion order — this definition follows the spec's words
("de-duplicated by URL, insertion order preserved, first occurrence
kept") and is compared with the source's accumulator loop. -/
def dedupKeepFirst : List String → List String
  | [] => []
  | x :: xs => x :: dedupKeepFirst (xs.filter (fun u => u != x))
termination_by l => l.length
decreasing_by
  simp only [List.length_cons]
  exact Nat.lt_succ_of_le (List.length_filter_le _ _)

/-- A container whose only rating signal is an explicit
`itemprop="ratingValue"` element with `content="6"`. -/
def ratingSixContainer : Node :=
  .elem "div" [] [.elem "span" [("itemprop", "ratingValue"), ("content", "6")] []]

/-- A container whose only rating signal is an accessible label
`"4.5 out of 5"` (no explicit rating attribute). -/
def ariaLabel45Container : Node :=
  .elem "div" [] [.elem "span" [("aria-label", "4.5 out of 5")] []]

/-- A container with an explicit `ratingValue` of `"3.5"`. -/
def itemprop35Container : Node :=
  .elem "div" [] [.elem "span" [("itemprop", "ratingValue"), ("content", "3.5")] []]

/-- A container with no rating signal at all. -/
def bareContainer : Node := .elem "div" [] [.text "nothing here"]

/-- A container with a `<time datetime="May 2021">` element. -/
def timeContainer : Node :=
  .elem "div" [] [.elem "time" [("datetime", "May 2021")] []]

/-- 2001 copies of `'a'`: a captured response body longer than 2000
characters containing no space. -/
def longBodyChars : List Char := List.replicate 2001 'a'

/-- A container whose only text is a host-response pattern followed by
a 2001-character space-free body. -/
def responseCexContainer : Node :=
  .elem "div" [] [.text (String.mk ("Response from A: ".data ++ longBodyChars))]

/-- A document whose only containers are five generic `<article>`
tags (none of the four higher-priority strategies matches). -/
def fiveArticlesDoc : Node :=
  .elem "html" [] [.elem "body" []
    [ .elem "article" [("id", "r1")] [.text "first review"],
      .elem "article" [("id", "r2")] [.text "second review"],
      .elem "article" [("id", "r3")] [.text "third review"],
      .elem "article" [("id", "r4")] [.text "fourth review"],
      .elem "article" [("id", "r5")] [.text "fifth review"] ]]

/-- A document with a single `<article>` container. -/
def oneArticleDoc : Node :=
  .elem "html" [] [.elem "body" [] [.elem "article" [] [.text "only review"]]]

/-- A document with no matching container for any strategy. -/
def noContainersDoc : Node :=
  .elem "html" [] [.elem "body" [] [.text "no reviews here"]]

/-- A date parser that always fails. -/
def dpNone : List Char → Option PyDateTime := fun _ => none

/-- A language detector that always fails. -/
def ldNone : List Char → Option String := fun _ => none

/-- A date parser that returns 2023-05-12 10:30:00 at offset +02:00
(the offset must not be printed). -/
def dpMay2023 : List Char → Option PyDateTime :=
  fun _ => some { year := 2023, month := 5, day := 12, hour := 10, minute := 30,
                  second := 0, tzMinutes := some 120 }

/-- A per-container assembly step that fails exactly on `<bad>`
elements. -/
def fWitness : Node → Except String Review :=
  fun n =>
    if isTag "bad" n then .error "boom"
    else .ok (ReviewParser.parse_single_review dpNone ldNone "room" n)

/-- A container the witness assembly step rejects. -/
def badContainer : Node := .elem "bad" [] []

def goodContainer1 : Node := .elem "article" [] [.text "fine one"]

def goodContainer2 : Node := .elem "article" [] [.text "fine two"]

theorem numVal_nonneg (ds fs : List Char) : 0 ≤ numVal ds fs := by
  unfold numVal
  positivity

theorem parseNumberAt_nonneg {l : List Char} {v : ℚ} {r : List Char}
    (h : parseNumberAt l = some (v, r)) : 0 ≤ v := by
  simp only [parseNumberAt] at h
  split at h
  · exact absurd h (by simp)
  · split at h
    · split at h <;>
        (simp only [Option.some.injEq, Prod.mk.injEq] at h; rw [← h.1]; exact numVal_nonneg _ _)
    · simp only [Option.some.injEq, Prod.mk.injEq] at h
      rw [← h.1]
      exact numVal_nonneg _ _

theorem matchOutOf5At_nonneg {l : List Char} {v : ℚ}
    (h : matchOutOf5At l = some v) : 0 ≤ v := by
  unfold matchOutOf5At at h
  simp only [bind, Option.bind_eq_some, Option.pure_def, Option.some.injEq] at h
  obtain ⟨⟨v1, r1⟩, h1, h⟩ := h
  obtain ⟨r2, -, h⟩ := h
  obtain ⟨r3, -, h⟩ := h
  obtain ⟨r4, -, h⟩ := h
  obtain ⟨r5, -, h⟩ := h
  obtain ⟨r6, -, h⟩ := h
  obtain ⟨r7, -, h⟩ := h
  rw [← h]
  exact parseNumberAt_nonneg h1

theorem matchSlash5At_nonneg {l : List Char} {v : ℚ}
    (h : matchSlash5At l = some v) : 0 ≤ v := by
  unfold matchSlash5At at h
  simp only [bind, Option.bind_eq_some, Option.pure_def, Option.some.injEq] at h
  obtain ⟨⟨v1, r1⟩, h1, h⟩ := h
  obtain ⟨r2, -, h⟩ := h
  obtain ⟨r3, -, h⟩ := h
  rw [← h]
  exact parseNumberAt_nonneg h1

theorem scanOutOf5_nonneg : ∀ {l : List Char} {v : ℚ}, scanOutOf5 l = some v → 0 ≤ v := by
  intro l
  induction l with
  | nil => intro v h; simp [scanOutOf5] at h
  | cons c t ih =>
    intro v h
    rw [scanOutOf5] at h
    cases hm : matchOutOf5At (c :: t) with
    | some w =>
      rw [hm] at h
      simp only [Option.some.injEq] at h
      rw [← h]
      exact matchOutOf5At_nonneg hm
    | none =>
      rw [hm] at h
      exact ih h

theorem scanSlash5_nonneg : ∀ {l : List Char} {v : ℚ}, scanSlash5 l = some v → 0 ≤ v := by
  intro l
  induction l with
  | nil => intro v h; simp [scanSlash5] at h
  | cons c t ih =>
    intro v h
    rw [scanSlash5] at h
    cases hm : matchSlash5At (c :: t) with
    | some w =>
      rw [hm] at h
      simp only [Option.some.injEq] at h
      rw [← h]
      exact matchSlash5At_nonneg hm
    | none =>
      rw [hm] at h
      exact ih h

theorem findSome?_forall_nonneg {α : Type} (g : α → Option ℚ)
    (hg : ∀ a w, g a = some w → 0 ≤ w) :
    ∀ (L : List α) {v : ℚ}, L.findSome? g = some v → 0 ≤ v := by
  intro L
  induction L with
  | nil => intro v h; simp at h
  | cons a t ih =>
    intro v h
    rw [List.findSome?_cons] at h
    cases hga : g a with
    | some w =>
      rw [hga] at h
      simp only [Option.some.injEq] at h
      rw [← h]
      exact hg a w hga
    | none =>
      rw [hga] at h
      exact ih h

/-- C10: the reviewer's and the host's `isSuperhost` detectors are the
same function of the container — both equal the case-insensitive
occurrence of "superhost" anywhere in the container's full visible
text. -/
theorem superhost_flags_agree :
    ∀ c : Node,
      ReviewerParser.detect_superhost_flag c = HostParser.detect_superhost_flag c ∧
      (ReviewerParser.detect_superhost_flag c = true ↔
        hasSubstr (toLowerL (getText [' '] c)) "superhost".data = true) := by
  intro c
  refine ⟨?_, ?_⟩
  · unfold ReviewerParser.detect_superhost_flag HostParser.detect_superhost_flag
    rfl
  · unfold ReviewerParser.detect_superhost_flag
    exact Iff.rfl

/-- C10 relation lifted to the assembled sub-records: for every
container the two parsers set equal flags. -/
theorem superhost_flags_agree_records (c : Node) :
    (ReviewerParser.parse_reviewer c).isSuperhost = (HostParser.parse_host c).isSuperhost := by
  simp only [ReviewerParser.parse_reviewer, HostParser.parse_host]
  unfold ReviewerParser.detect_superhost_flag HostParser.detect_superhost_flag
  rfl

/-- C4: the rating extractor tries the explicit `ratingValue` attribute,
then the `"<number> out of 5"` accessible label, then the `"<number>/5"`
free-text scan, strictly in this order, returning the first valid
number; an accessible label `"4.5 out of 5"` with no explicit attribute
yields `4.5`, and with no signal at all the rating is `none`, not 0. -/
theorem rating_cascade_order :
    (∀ (c : Node) (v : ℚ), ReviewParser.ratingFromItemprop c = some v →
        ReviewParser.extract_rating c = some v) ∧
    (∀ (c : Node) (v : ℚ), ReviewParser.ratingFromItemprop c = none →
        ReviewParser.ratingFromAriaLabel c = some v →
        ReviewParser.extract_rating c = some v) ∧
    (∀ c : Node, ReviewParser.ratingFromItemprop c = none →
        ReviewParser.ratingFromAriaLabel c = none →
        ReviewParser.extract_rating c = ReviewParser.ratingFromText c) ∧
    (∀ c : Node, ReviewParser.ratingFromItemprop c = none →
        ReviewParser.ratingFromAriaLabel c = none →
        ReviewParser.ratingFromText c = none →
        ReviewParser.extract_rating c = none) ∧
    ReviewParser.extract_rating ariaLabel45Container = some (9 / 2) := by
  refine ⟨?_, ?_, ?_, ?_, ?_⟩
  · intro c v h
    unfold ReviewParser.extract_rating
    rw [h]
  · intro c v h1 h2
    unfold ReviewParser.extract_rating
    rw [h1, h2]
  · intro c h1 h2
    unfold ReviewParser.extract_rating
    rw [h1, h2]
  · intro c h1 h2 h3
    unfold ReviewParser.extract_rating
    rw [h1, h2, h3]
  · have h1 : ReviewParser.extract_rating ariaLabel45Container =
        some (numVal ['4'] ['5']) := rfl
    rw [h1]
    norm_num [numVal, digitsToNat, List.foldl,
      show '4'.toNat - '0'.toNat = 4 from rfl, show '5'.toNat - '0'.toNat = 5 from rfl]

/-- C4 witness: the cascade evaluated on concrete containers — an
explicit `content="3.5"` wins, the `"4.5 out of 5"` label gives `4.5`,
and a signal-free container gives `none`. -/
theorem rating_cascade_order_witness :
    ReviewParser.extract_rating itemprop35Container = some (7 / 2) ∧
    ReviewParser.extract_rating ariaLabel45Container = some (9 / 2) ∧
    ReviewParser.extract_rating bareContainer = none := by
  refine ⟨?_, ?_, ?_⟩
  · refine rating_cascade_order.1 itemprop35Container (7 / 2) ?_
    have h1 : ReviewParser.ratingFromItemprop itemprop35Container =
        some ((1 : ℚ) * numVal ['3'] ['5']) := rfl
    rw [h1]
    norm_num [numVal, digitsToNat, List.foldl,
      show '3'.toNat - '0'.toNat = 3 from rfl, show '5'.toNat - '0'.toNat = 5 from rfl]
  · refine rating_cascade_order.2.1 ariaLabel45Container (9 / 2) rfl ?_
    have h1 : ReviewParser.ratingFromAriaLabel ariaLabel45Container =
        some (numVal ['4'] ['5']) := rfl
    rw [h1]
    norm_num [numVal, digitsToNat, List.foldl,
      show '4'.toNat - '0'.toNat = 4 from rfl, show '5'.toNat - '0'.toNat = 5 from rfl]
  · exact rating_cascade_order.2.2.2.1 bareContainer rfl rfl rfl

/-- C3 counterexample: an explicit `ratingValue` of `"6"` is returned
unvalidated, so the extracted rating is 6, outside `[0, 5]`. -/
theorem rating_range_counterexample :
    ReviewParser.extract_rating ratingSixContainer = some 6 ∧ ¬ ((6 : ℚ) ≤ 5) := by
  constructor
  · have h1 : ReviewParser.extract_rating ratingSixContainer =
        some ((1 : ℚ) * numVal ['6'] []) := rfl
    rw [h1]
    norm_num [numVal, digitsToNat, List.foldl, show '6'.toNat - '0'.toNat = 6 from rfl]
  · norm_num

/-- C3 amended: whenever the extracted rating is set, it either comes
from the explicit `ratingValue` attribute (whose parsed value is
returned without any range validation, so values outside `[0, 5]`
occur) or from the label/free-text heuristics, whose captured numbers
are nonnegative; no `[0, 5]` clamping is performed anywhere. -/
theorem rating_set_source :
    ∀ (c : Node) (v : ℚ), ReviewParser.extract_rating c = some v →
      ReviewParser.ratingFromItemprop c = some v ∨ 0 ≤ v := by
  intro c v h
  unfold ReviewParser.extract_rating at h
  cases h1 : ReviewParser.ratingFromItemprop c with
  | some w =>
    rw [h1] at h
    simp only [Option.some.injEq] at h
    left
    exact congrArg some h
  | none =>
    right
    rw [h1] at h
    cases h2 : ReviewParser.ratingFromAriaLabel c with
    | some w =>
      rw [h2] at h
      simp only [Option.some.injEq] at h
      rw [← h]
      exact findSome?_forall_nonneg _
        (fun e u hu => scanOutOf5_nonneg hu) _ h2
    | none =>
      rw [h2] at h
      exact scanSlash5_nonneg h

/-- C3 amended witness: the amended theorem applied at the
`content="6"` container. -/
theorem rating_set_source_witness :
    ReviewParser.ratingFromItemprop ratingSixContainer = some 6 ∨ (0 : ℚ) ≤ 6 := by
  refine rating_set_source ratingSixContainer 6 ?_
  have h1 : ReviewParser.extract_rating ratingSixContainer =
      some ((1 : ℚ) * numVal ['6'] []) := rfl
  rw [h1]
  norm_num [numVal, digitsToNat, List.foldl, show '6'.toNat - '0'.toNat = 6 from rfl]

/-- C1: a container whose assembly step fails is skipped — the batch
result is the same as if that container were absent, for every
surrounding batch, accumulator and maximum count; in particular no
error propagates (the loop is total) and all subsequent containers are
still processed. -/
theorem failing_container_skipped :
    ∀ (f : Node → Except String Review) (mx : Option Nat) (pre : List Node)
      (c : Node) (post : List Node) (acc : List Review) (e : String),
      f c = .error e →
      ReviewParser.parse_loop f mx (pre ++ c :: post) acc =
        ReviewParser.parse_loop f mx (pre ++ post) acc := by
  intro f mx pre c post
  induction pre with
  | nil =>
    intro acc e h
    simp only [List.nil_append]
    rw [ReviewParser.parse_loop]
    by_cases hm : ReviewParser.maxReached mx acc.length
    · rw [if_pos hm]
      cases post with
      | nil => rw [ReviewParser.parse_loop]
      | cons p ps => rw [ReviewParser.parse_loop, if_pos hm]
    · rw [if_neg hm, h]
  | cons p pre' ih =>
    intro acc e h
    simp only [List.cons_append]
    rw [ReviewParser.parse_loop]
    conv_rhs => rw [ReviewParser.parse_loop]
    by_cases hm : ReviewParser.maxReached mx acc.length
    · rw [if_pos hm, if_pos hm]
    · rw [if_neg hm, if_neg hm]
      cases hfp : f p with
      | error e' => exact ih acc e h
      | ok r => exact ih (acc ++ [r]) e h

/-- C1 witness: the theorem applied to a concrete three-container batch
whose middle container fails. -/
theorem failing_container_skipped_witness :
    ReviewParser.parse_loop fWitness none [goodContainer1, badContainer, goodContainer2] [] =
      ReviewParser.parse_loop fWitness none [goodContainer1, goodContainer2] [] :=
  failing_container_skipped fWitness none [goodContainer1] badContainer
    [goodContainer2] [] "boom" rfl

/-- When every container assembles successfully, the loop returns the
first `n - acc.length` assembled records appended to the accumulator. -/
theorem parse_loop_ok_take (g : Node → Review) (n : Nat) :
    ∀ (cs : List Node) (acc : List Review), acc.length ≤ n →
      ReviewParser.parse_loop (fun c => Except.ok (g c)) (some n) cs acc =
        acc ++ (cs.take (n - acc.length)).map g := by
  intro cs
  induction cs with
  | nil => intro acc hle; rw [ReviewParser.parse_loop]; simp
  | cons c cs' ih =>
    intro acc hle
    rw [ReviewParser.parse_loop]
    by_cases hm : n ≤ acc.length
    · have hn : n = acc.length := Nat.le_antisymm hm hle
      have : ReviewParser.maxReached (some n) acc.length = true := by
        simp [ReviewParser.maxReached, hm]
      rw [if_pos this]
      simp [hn]
    · have : ¬ (ReviewParser.maxReached (some n) acc.length = true) := by
        simp [ReviewParser.maxReached]
        omega
      rw [if_neg this]
      dsimp only
      have hlt : acc.length < n := Nat.lt_of_not_le hm
      have h2 : (acc ++ [g c]).length ≤ n := by
        simp [List.length_append]
        omega
      rw [ih (acc ++ [g c]) h2]
      have hk : n - acc.length = (n - (acc ++ [g c]).length) + 1 := by
        simp [List.length_append]
        omega
      rw [hk]
      simp [List.take_succ_cons]

/-- C9: with `max_items = 2` and five discovered containers,
`parse_reviews` returns exactly the records of the first two containers
in document order (so the remaining containers never influence the
result), for every date parser, language detector and room URL. -/
theorem max_items_two_of_five :
    ∀ (dp : List Char → Option PyDateTime) (ld : List Char → Option String)
      (doc : Node) (room_url : String),
      (ReviewParser.find_review_containers doc).length = 5 →
      ReviewParser.parse_reviews dp ld doc room_url (some 2) =
        ((ReviewParser.find_review_containers doc).take 2).map
          (ReviewParser.parse_single_review dp ld room_url) := by
  intro dp ld doc room_url _
  unfold ReviewParser.parse_reviews
  rw [parse_loop_ok_take (ReviewParser.parse_single_review dp ld room_url) 2
    (ReviewParser.find_review_containers doc) [] (by simp)]
  simp

/-- C9 witness: the theorem applied to a document with exactly five
`<article>` containers. -/
theorem max_items_two_of_five_witness :
    ReviewParser.parse_reviews dpNone ldNone fiveArticlesDoc "room" (some 2) =
      ((ReviewParser.find_review_containers fiveArticlesDoc).take 2).map
        (ReviewParser.parse_single_review dpNone ldNone "room") :=
  max_items_two_of_five dpNone ldNone fiveArticlesDoc "room" rfl

/-- The selection loop returns the matches of the first selector with a
nonempty match set. -/
theorem first_nonempty_select_at (doc : Node) :
    ∀ (sels : List Selector) (i : Nat), i < sels.length →
      (∀ j, j < i → selectAll (sels.getD j (.tag "")) doc = []) →
      selectAll (sels.getD i (.tag "")) doc ≠ [] →
      ReviewParser.first_nonempty_select doc sels =
        selectAll (sels.getD i (.tag "")) doc := by
  intro sels
  induction sels with
  | nil => intro i hi; simp at hi
  | cons s rest ih =>
    intro i hi hprev hne
    cases i with
    | zero =>
      simp only [List.getD_cons_zero] at hne ⊢
      rw [ReviewParser.first_nonempty_select]
      cases hsel : selectAll s doc with
      | nil => exact absurd hsel hne
      | cons a l => simp [hsel]
    | succ i' =>
      have hs : selectAll s doc = [] := by
        have := hprev 0 (Nat.succ_pos i')
        simpa using this
      rw [ReviewParser.first_nonempty_select]
      simp only [hs, List.isEmpty_nil, if_true]
      simp only [List.getD_cons_succ] at hne ⊢
      refine ih i' (Nat.lt_of_succ_lt_succ hi) ?_ hne
      intro j hj
      have := hprev (j + 1) (Nat.succ_lt_succ hj)
      simpa using this

/-- When every selector comes up empty, the selection loop returns the
empty list. -/
theorem first_nonempty_select_nil (doc : Node) :
    ∀ sels : List Selector,
      (∀ j, j < sels.length → selectAll (sels.getD j (.tag "")) doc = []) →
      ReviewParser.first_nonempty_select doc sels = [] := by
  intro sels
  induction sels with
  | nil => intro _; rw [ReviewParser.first_nonempty_select]
  | cons s rest ih =>
    intro hall
    have hs : selectAll s doc = [] := by
      have := hall 0 (Nat.succ_pos rest.length)
      simpa using this
    rw [ReviewParser.first_nonempty_select]
    simp only [hs, List.isEmpty_nil, if_true]
    refine ih ?_
    intro j hj
    have := hall (j + 1) (Nat.succ_lt_succ hj)
    simpa using this

/-- C2: the Container Locator returns the nodes matched by the first
strategy (in the fixed priority order explicit review-id attribute,
test-id, microdata, class "review", generic article) that matches at
least one node, and tries no later strategy; and when no strategy
matches any node, `parse_reviews` returns the empty sequence (it is
total, so no error is possible). -/
theorem container_locator_first_strategy :
    (∀ (doc : Node) (i : Nat), i < ReviewParser.review_selectors.length →
      (∀ j, j < i →
        selectAll (ReviewParser.review_selectors.getD j (.tag "")) doc = []) →
      selectAll (ReviewParser.review_selectors.getD i (.tag "")) doc ≠ [] →
      ReviewParser.find_review_containers doc =
        selectAll (ReviewParser.review_selectors.getD i (.tag "")) doc) ∧
    (∀ doc : Node,
      (∀ j, j < ReviewParser.review_selectors.length →
        selectAll (ReviewParser.review_selectors.getD j (.tag "")) doc = []) →
      ReviewParser.find_review_containers doc = [] ∧
      ∀ dp ld room_url max_items,
        ReviewParser.parse_reviews dp ld doc room_url max_items = []) := by
  constructor
  · intro doc i hi hprev hne
    exact first_nonempty_select_at doc ReviewParser.review_selectors i hi hprev hne
  · intro doc hall
    have hempty : ReviewParser.find_review_containers doc = [] :=
      first_nonempty_select_nil doc ReviewParser.review_selectors hall
    refine ⟨hempty, ?_⟩
    intro dp ld room_url max_items
    unfold ReviewParser.parse_reviews
    rw [hempty]
    rw [ReviewParser.parse_loop]

/-- C2 witness: on a document whose only review-shaped nodes are
`<article>` tags, the locator returns exactly the article matches (the
fifth strategy), and on a container-free document `parse_reviews`
returns the empty list. -/
theorem container_locator_first_strategy_witness :
    ReviewParser.find_review_containers oneArticleDoc =
      selectAll (ReviewParser.review_selectors.getD 4 (.tag "")) oneArticleDoc ∧
    ReviewParser.parse_reviews dpNone ldNone noContainersDoc "room" none = [] := by
  constructor
  · refine container_locator_first_strategy.1 oneArticleDoc 4 (by decide) ?_ ?_
    · intro j hj
      interval_cases j <;> rfl
    · intro h
      have : (selectAll (ReviewParser.review_selectors.getD 4 (.tag "")) oneArticleDoc).length = 1 := rfl
      rw [h] at this
      simp at this
  · refine (container_locator_first_strategy.2 noContainersDoc ?_).2 dpNone ldNone "room" none
    intro j hj
    have h5 : ReviewParser.review_selectors.length = 5 := rfl
    rw [h5] at hj
    interval_cases j <;> rfl

/-- C5: `createdAt` is never set without `localizedDate`; and when date
text is captured but the parse capability rejects it, the raw text is
kept as `localizedDate` while `createdAt` stays unset — for every date
parser and every container. -/
theorem dates_invariant :
    ∀ (dp : List Char → Option PyDateTime) (c : Node),
      ((ReviewParser.extract_dates dp c).1 ≠ none →
        (ReviewParser.extract_dates dp c).2 ≠ none) ∧
      (ReviewParser.date_text c ≠ [] → dp (ReviewParser.date_text c) = none →
        ReviewParser.extract_dates dp c = (none, some (ReviewParser.date_text c))) := by
  intro dp c
  unfold ReviewParser.extract_dates
  by_cases ht : ReviewParser.date_text c = []
  · rw [if_pos ht]
    exact ⟨fun h => absurd rfl h, fun hne _ => absurd ht hne⟩
  · rw [if_neg ht]
    cases hdp : dp (ReviewParser.date_text c) with
    | none =>
      exact ⟨fun h => absurd rfl h, fun _ _ => rfl⟩
    | some dt =>
      refine ⟨fun _ => by simp, fun _ hdp' => ?_⟩
      exact absurd hdp' (by simp)

/-- C5 witness: the theorem applied to a `<time datetime="May 2021">`
container, with an always-failing date parser for the raw-text fallback
part and a succeeding one for the never-createdAt-without-localizedDate
part. -/
theorem dates_invariant_witness :
    ReviewParser.extract_dates dpNone timeContainer =
      (none, some (ReviewParser.date_text timeContainer)) ∧
    (ReviewParser.extract_dates dpMay2023 timeContainer).2 ≠ none :=
  ⟨(dates_invariant dpNone timeContainer).2 (by decide) rfl,
   (dates_invariant dpMay2023 timeContainer).1 (by simp [ReviewParser.extract_dates,
     show ReviewParser.date_text timeContainer = "May 2021".data from rfl, dpMay2023])⟩

/-- C6: whenever the captured date text parses, `createdAt` is the
ISO-8601 seconds-precision rendering of the parsed timestamp's calendar
fields with a literal `'Z'` appended and no timezone offset printed
(the `tzMinutes` field of the timestamp is discarded), and
`localizedDate` is the coarse "Month Year" display string. -/
theorem created_at_format :
    ∀ (dp : List Char → Option PyDateTime) (c : Node) (dt : PyDateTime),
      ReviewParser.date_text c ≠ [] →
      dp (ReviewParser.date_text c) = some dt →
      ReviewParser.extract_dates dp c =
        (some (padNum 4 dt.year ++ '-' :: padNum 2 dt.month ++ '-' :: padNum 2 dt.day ++
          'T' :: padNum 2 dt.hour ++ ':' :: padNum 2 dt.minute ++
          ':' :: padNum 2 dt.second ++ ['Z']),
         some (monthName dt.month ++ ' ' :: Nat.toDigits 10 dt.year)) := by
  intro dp c dt ht hdp
  unfold ReviewParser.extract_dates
  rw [if_neg ht, hdp]
  rfl

/-- C6 witness: a date parser returning 2023-05-12 10:30:00 at offset
+02:00 yields `createdAt = "2023-05-12T10:30:00Z"` (offset stripped)
and `localizedDate = "May 2023"`. -/
theorem created_at_format_witness :
    ReviewParser.extract_dates dpMay2023 timeContainer =
      (some "2023-05-12T10:30:00Z".data, some "May 2023".data) := by
  have h := created_at_format dpMay2023 timeContainer
    { year := 2023, month := 5, day := 12, hour := 10, minute := 30,
      second := 0, tzMinutes := some 120 } (by decide) rfl
  rw [h]
  rfl

theorem dedupKeepFirst_nil : dedupKeepFirst [] = [] := by
  rw [dedupKeepFirst]

theorem dedupKeepFirst_cons (x : String) (xs : List String) :
    dedupKeepFirst (x :: xs) = x :: dedupKeepFirst (xs.filter (fun u => u != x)) := by
  rw [dedupKeepFirst]

theorem mem_dedupKeepFirst : ∀ (l : List String) (a : String),
    a ∈ dedupKeepFirst l ↔ a ∈ l := by
  intro l
  induction l using dedupKeepFirst.induct with
  | case1 => intro a; rw [dedupKeepFirst_nil]
  | case2 x xs ih =>
    intro a
    rw [dedupKeepFirst_cons]
    by_cases hax : a = x
    · subst hax
      simp
    · simp only [List.mem_cons, ih, List.mem_filter]
      constructor
      · rintro (h | ⟨h, -⟩)
        · exact Or.inl h
        · exact Or.inr h
      · rintro (h | h)
        · exact Or.inl h
        · exact Or.inr ⟨h, by simp [hax]⟩

theorem nodup_dedupKeepFirst : ∀ l : List String, (dedupKeepFirst l).Nodup := by
  intro l
  induction l using dedupKeepFirst.induct with
  | case1 => rw [dedupKeepFirst_nil]; exact List.nodup_nil
  | case2 x xs ih =>
    rw [dedupKeepFirst_cons]
    refine List.Nodup.cons ?_ ih
    intro hmem
    rw [mem_dedupKeepFirst] at hmem
    have := (List.mem_filter.mp hmem).2
    simp at this

theorem foldl_pushUnique_eq : ∀ (l acc : List String),
    l.foldl ReviewParser.pushUnique acc =
      acc ++ dedupKeepFirst (l.filter (fun u => decide (u ∉ acc))) := by
  intro l
  induction l with
  | nil => intro acc; simp [dedupKeepFirst_nil]
  | cons x xs ih =>
    intro acc
    rw [List.foldl_cons]
    by_cases hx : x ∈ acc
    · have hpu : ReviewParser.pushUnique acc x = acc := by
        unfold ReviewParser.pushUnique
        rw [if_pos hx]
      rw [hpu, ih acc]
      have hfil : (x :: xs).filter (fun u => decide (u ∉ acc)) =
          xs.filter (fun u => decide (u ∉ acc)) := by
        rw [List.filter_cons]
        simp [hx]
      rw [hfil]
    · have hpu : ReviewParser.pushUnique acc x = acc ++ [x] := by
        unfold ReviewParser.pushUnique
        rw [if_neg hx]
      rw [hpu, ih (acc ++ [x])]
      have hfil : (x :: xs).filter (fun u => decide (u ∉ acc)) =
          x :: xs.filter (fun u => decide (u ∉ acc)) := by
        rw [List.filter_cons]
        simp [hx]
      rw [hfil, dedupKeepFirst_cons, List.append_assoc]
      have hff : xs.filter (fun u => decide (u ∉ acc ++ [x])) =
          (xs.filter (fun u => decide (u ∉ acc))).filter (fun u => u != x) := by
        rw [List.filter_filter]
        refine List.filter_congr ?_
        intro u _
        by_cases h1 : u ∈ acc <;> by_cases h2 : u = x <;>
          simp [h1, h2, List.mem_append]
      rw [hff]
      rfl

/-- C8: the extracted `reviewPhotos` equal the first-occurrence
de-duplication of the candidate-URL stream — insertion order preserved,
first occurrence kept — and therefore contain no duplicate URL, for
every container, including any whose markup repeats an image source. -/
theorem review_photos_dedup :
    ∀ c : Node,
      ReviewParser.extract_review_photos c =
        dedupKeepFirst (ReviewParser.photoCandidates c) ∧
      (ReviewParser.extract_review_photos c).Nodup := by
  intro c
  have key : ∀ l : List String, l.foldl ReviewParser.pushUnique [] = dedupKeepFirst l := by
    intro l
    rw [foldl_pushUnique_eq l []]
    simp only [List.nil_append]
    congr 1
    refine (List.filter_eq_self.mpr ?_)
    intro u _
    simp
  have hmain : ReviewParser.extract_review_photos c =
      dedupKeepFirst (ReviewParser.photoCandidates c) := by
    unfold ReviewParser.extract_review_photos ReviewParser.photoCandidates
    rw [key, key]
    cases hp1 : ReviewParser.photoPhase1 c with
    | nil => simp [dedupKeepFirst_nil]
    | cons a l =>
      simp [dedupKeepFirst_cons]
  exact ⟨hmain, hmain ▸ nodup_dedupKeepFirst _⟩

theorem dropWhile_head_eq_false {α : Type} {p : α → Bool} :
    ∀ {l : List α} {c : α} {r : List α}, l.dropWhile p = c :: r → p c = false := by
  intro l
  induction l with
  | nil => intro c r h; simp [List.dropWhile] at h
  | cons a t ih =>
    intro c r h
    rw [List.dropWhile_cons] at h
    by_cases hp : p a = true
    · rw [if_pos hp] at h
      exact ih h
    · rw [if_neg hp] at h
      cases h
      exact Bool.eq_false_iff.mpr hp

/-- When the text contains a space, `rsplit(" ", 1)[0]` cuts exactly at
the last space: the original text is the kept part, a space, and a
tail. -/
theorem dropLastWord_boundary {t : List Char} (h : ' ' ∈ t) :
    ∃ tl, t = dropLastWord t ++ ' ' :: tl := by
  unfold dropLastWord
  cases hd : (t.reverse).dropWhile (fun c => c ≠ ' ') with
  | nil =>
    exfalso
    have hrev : ' ' ∈ t.reverse := by simpa using h
    have hall := List.dropWhile_eq_nil_iff.mp hd ' ' hrev
    simp at hall
  | cons d restRev =>
    have hdf := dropWhile_head_eq_false hd
    have hd' : d = ' ' := by simpa using hdf
    subst hd'
    refine ⟨((t.reverse).takeWhile (fun c => c ≠ ' ')).reverse, ?_⟩
    have ht : (t.reverse).takeWhile (fun c => c ≠ ' ') ++ (' ' :: restRev) = t.reverse := by
      rw [← hd]
      exact List.takeWhile_append_dropWhile _ _
    calc t = t.reverse.reverse := (List.reverse_reverse t).symm
      _ = ((t.reverse).takeWhile (fun c => c ≠ ' ') ++ (' ' :: restRev)).reverse := by
          rw [ht]
      _ = (' ' :: restRev).reverse ++ ((t.reverse).takeWhile (fun c => c ≠ ' ')).reverse := by
          rw [List.reverse_append]
      _ = restRev.reverse ++ ' ' :: ((t.reverse).takeWhile (fun c => c ≠ ' ')).reverse := by
          rw [List.reverse_cons]
          simp
  
/-- When the text contains no space, `rsplit(" ", 1)[0]` keeps it
whole. -/
theorem dropLastWord_nospace {t : List Char} (h : ' ' ∉ t) : dropLastWord t = t := by
  unfold dropLastWord
  have hnil : (t.reverse).dropWhile (fun c => c ≠ ' ') = [] := by
    rw [List.dropWhile_eq_nil_iff]
    intro a ha
    have hat : a ∈ t := by simpa using ha
    simp only [ne_eq, decide_eq_true_eq]
    intro heq
    exact h (heq ▸ hat)
  rw [hnil]

/-- The kept part is a prefix of the text. -/
theorem dropLastWord_prefix_of (t : List Char) : dropLastWord t <+: t := by
  by_cases h : ' ' ∈ t
  · obtain ⟨tl, htl⟩ := dropLastWord_boundary h
    exact ⟨' ' :: tl, htl.symm⟩
  · rw [dropLastWord_nospace h]


theorem dropWhile_cons_false {p : Char → Bool} {c : Char} (h : p c = false) (l : List Char) :
    (c :: l).dropWhile p = c :: l := by
  rw [List.dropWhile_cons, if_neg]
  simp [h]

theorem dropWhile_replicate_append (n : Nat) (hn : 0 < n) (X : List Char) :
    (List.replicate n 'a' ++ X).dropWhile pyWS = List.replicate n 'a' ++ X := by
  cases n with
  | zero => exact absurd hn (by simp)
  | succ m =>
    rw [List.replicate_succ, List.cons_append]
    exact dropWhile_cons_false (by decide) _

/-- The long response body is already stripped. -/
theorem pyStrip_longBody :
    pyStrip ("Response from A: ".data ++ longBodyChars) =
      "Response from A: ".data ++ longBodyChars := by
  have hcons : "Response from A: ".data ++ longBodyChars =
      'R' :: ("esponse from A: ".data ++ longBodyChars) := rfl
  unfold pyStrip
  rw [hcons, dropWhile_cons_false (by decide), ← hcons]
  rw [show longBodyChars = List.replicate 2001 'a' from rfl]
  rw [List.reverse_append, List.reverse_replicate]
  rw [dropWhile_replicate_append 2001 (by norm_num)]
  rw [List.reverse_append, List.reverse_reverse, List.reverse_replicate]

theorem dropWhile_replicate (n : Nat) (hn : 0 < n) :
    (List.replicate n 'a').dropWhile pyWS = List.replicate n 'a' := by
  cases n with
  | zero => exact absurd hn (by simp)
  | succ m =>
    rw [List.replicate_succ]
    exact dropWhile_cons_false (by decide) _

/-- Stripping the captured group `" " ++ body` yields the body. -/
theorem pyStrip_spaceRep : pyStrip (' ' :: longBodyChars) = longBodyChars := by
  unfold pyStrip
  rw [List.dropWhile_cons, if_pos (by decide)]
  rw [show longBodyChars = List.replicate 2001 'a' from rfl]
  rw [dropWhile_replicate 2001 (by norm_num), List.reverse_replicate,
    dropWhile_replicate 2001 (by norm_num), List.reverse_replicate]

/-- The newline-joined visible text of the counterexample container. -/
theorem getText_responseCex :
    getText ['\n'] responseCexContainer = "Response from A: ".data ++ longBodyChars := by
  unfold getText
  have hfrag : textFragments responseCexContainer =
      [String.mk ("Response from A: ".data ++ longBodyChars)] := rfl
  rw [hfrag]
  rw [List.map_cons, List.map_nil]
  have hdata : (String.mk ("Response from A: ".data ++ longBodyChars)).data =
      "Response from A: ".data ++ longBodyChars := rfl
  rw [hdata, pyStrip_longBody]
  rw [List.filter_cons, if_pos ?_]
  · rw [List.filter_nil, intercalateL]
  · rw [show "Response from A: ".data ++ longBodyChars =
        'R' :: ("esponse from A: ".data ++ longBodyChars) from rfl]
    rfl

/-- The `"response from"` scan on the counterexample text fires at
position 0 and returns the suffix after the phrase. -/
theorem scanRF_concrete :
    scanResponseFrom ("Response from A: ".data ++ longBodyChars) =
      some (' ' :: 'A' :: ':' :: ' ' :: longBodyChars) := by
  have hcons : "Response from A: ".data ++ longBodyChars =
      'R' :: ("esponse from A: ".data ++ longBodyChars) := rfl
  rw [hcons, scanResponseFrom, if_pos ?_]
  · rw [show (13 : Nat) = 12 + 1 from rfl, List.drop_succ_cons]
    rw [List.drop_append_of_le_length (by decide)]
    rw [show ("esponse from A: ".data).drop 12 = [' ', 'A', ':', ' '] from rfl]
    rfl
  · unfold ciStartsWith
    rw [show ("response from".data).length = 13 from rfl]
    rw [show (13 : Nat) = 12 + 1 from rfl, List.take_succ_cons]
    rw [List.take_append_of_le_length (by decide)]
    decide

/-- The colon search finds the colon of `" A: "` with a nonempty
remainder. -/
theorem afterColon_concrete :
    afterColon (' ' :: 'A' :: ':' :: ' ' :: longBodyChars) =
      some (' ' :: longBodyChars) := by
  rw [afterColon, if_neg (by simp)]
  rw [afterColon, if_neg (by simp)]
  rw [afterColon, if_pos ⟨rfl, by simp⟩]

/-- The fallback branch of `_extract_host_response`: no explicit
host-response region, a "response from" match and a viable colon yield
the stripped, truncated capture. -/
theorem extract_host_response_fallback :
    ∀ (c : Node) (suf rest : List Char),
      selectOne (.tagAttrEq "div" "data-testid" "review-detail-host-response") c = none →
      selectOne (.tagAttrEq "section" "data-testid" "host-response") c = none →
      scanResponseFrom (getText ['\n'] c) = some suf →
      afterColon suf = some rest →
      ReviewParser.extract_host_response c =
        some (ReviewParser.truncResponse (pyStrip rest)) := by
  intro c suf rest h1 h2 h3 h4
  unfold ReviewParser.extract_host_response
  have hstruct : ReviewParser.host_response_selectors.findSome? (fun s =>
      match selectOne s c with
      | some e =>
        let t := getText [' '] e
        if t ≠ [] then some t else none
      | none => none) = none := by
    unfold ReviewParser.host_response_selectors
    rw [List.findSome?_cons, h1]
    dsimp only
    rw [List.findSome?_cons, h2]
    rfl
  rw [hstruct]
  dsimp only
  rw [h3]
  dsimp only
  rw [h4]

/-- C7 (amended): with no explicit host-response region, the host
response is captured case-insensitively across line breaks from the
"Response from ... : body" pattern; when the stripped captured body
exceeds 2000 characters the result is a prefix of the body of at most
2000 characters with an ellipsis appended, cut at the last word
boundary inside the first 2000 characters when one exists — when the
first 2000 characters contain no space, they are kept unsplit (the
first 2000 characters are followed by the ellipsis). -/
theorem host_response_truncation :
    ∀ (c : Node) (suf rest : List Char),
      selectOne (.tagAttrEq "div" "data-testid" "review-detail-host-response") c = none →
      selectOne (.tagAttrEq "section" "data-testid" "host-response") c = none →
      scanResponseFrom (getText ['\n'] c) = some suf →
      afterColon suf = some rest →
      (pyStrip rest).length > 2000 →
      ∃ kept, ReviewParser.extract_host_response c = some (kept ++ ['…']) ∧
        kept.length ≤ 2000 ∧ kept <+: pyStrip rest ∧
        (' ' ∈ (pyStrip rest).take 2000 →
          ∃ tl, (pyStrip rest).take 2000 = kept ++ ' ' :: tl) ∧
        (' ' ∉ (pyStrip rest).take 2000 → kept = (pyStrip rest).take 2000) := by
  intro c suf rest h1 h2 h3 h4 h5
  refine ⟨dropLastWord ((pyStrip rest).take 2000), ?_, ?_, ?_, ?_, ?_⟩
  · rw [extract_host_response_fallback c suf rest h1 h2 h3 h4]
    unfold ReviewParser.truncResponse
    rw [if_pos h5]
  · calc (dropLastWord ((pyStrip rest).take 2000)).length
        ≤ ((pyStrip rest).take 2000).length :=
          (dropLastWord_prefix_of _).length_le
      _ ≤ 2000 := List.length_take_le _ _
  · refine (dropLastWord_prefix_of _).trans ?_
    exact ⟨(pyStrip rest).drop 2000, List.take_append_drop _ _⟩
  · intro hsp
    exact dropLastWord_boundary hsp
  · intro hsp
    exact dropLastWord_nospace hsp

/-- C7 witness: the amended theorem applied to a container whose
captured body is 2001 space-free characters. -/
theorem host_response_truncation_witness :
    ∃ kept, ReviewParser.extract_host_response responseCexContainer =
        some (kept ++ ['…']) ∧
      kept.length ≤ 2000 ∧ kept <+: pyStrip (' ' :: longBodyChars) ∧
      (' ' ∈ (pyStrip (' ' :: longBodyChars)).take 2000 →
        ∃ tl, (pyStrip (' ' :: longBodyChars)).take 2000 = kept ++ ' ' :: tl) ∧
      (' ' ∉ (pyStrip (' ' :: longBodyChars)).take 2000 →
        kept = (pyStrip (' ' :: longBodyChars)).take 2000) := by
  refine host_response_truncation responseCexContainer
    (' ' :: 'A' :: ':' :: ' ' :: longBodyChars) (' ' :: longBodyChars)
    rfl rfl ?_ afterColon_concrete ?_
  · rw [getText_responseCex]
    exact scanRF_concrete
  · rw [pyStrip_spaceRep]
    rw [show longBodyChars = List.replicate 2001 'a' from rfl, List.length_replicate]
    norm_num

/-- C7 counterexample: for the same container the kept prefix is the
raw first 2000 characters of the single 2001-character word — the cut
is not at a word boundary (no tail exists after a space), refuting the
unconditional "truncated at a word boundary" reading. -/
theorem host_response_boundary_counterexample :
    ReviewParser.extract_host_response responseCexContainer =
      some (List.replicate 2000 'a' ++ ['…']) ∧
    ¬ ∃ tl, longBodyChars = List.replicate 2000 'a' ++ ' ' :: tl := by
  constructor
  · rw [extract_host_response_fallback responseCexContainer
      (' ' :: 'A' :: ':' :: ' ' :: longBodyChars) (' ' :: longBodyChars)
      rfl rfl (by rw [getText_responseCex]; exact scanRF_concrete) afterColon_concrete]
    rw [pyStrip_spaceRep]
    unfold ReviewParser.truncResponse
    rw [if_pos ?hlen]
    case hlen =>
      rw [show longBodyChars = List.replicate 2001 'a' from rfl, List.length_replicate]
      norm_num
    rw [show longBodyChars.take 2000 = List.replicate 2000 'a' from ?htake]
    case htake =>
      rw [show longBodyChars = List.replicate 2001 'a' from rfl, List.take_replicate]
      norm_num
    rw [dropLastWord_nospace ?hnsp]
    case hnsp =>
      intro h
      rw [List.mem_replicate] at h
      exact absurd h.2 (by decide)
  · rintro ⟨tl, htl⟩
    have hlen := congrArg List.length htl
    rw [show longBodyChars = List.replicate 2001 'a' from rfl] at htl hlen
    simp only [List.length_replicate, List.length_append, List.length_cons] at hlen
    have htl0 : tl = [] := List.length_eq_zero.mp (by omega)
    subst htl0
    have h2 : List.replicate 2001 'a' = List.replicate 2000 'a' ++ ['a'] := by
      rw [show (2001 : Nat) = 2000 + 1 from rfl, List.replicate_succ']
    rw [h2] at htl
    have h3 := List.append_cancel_left htl
    simp at h3
